import Mathlib

/-!
# Verification of the time-tracking / invoicing core

Shallow embedding of `backend/db_helper.py` (class `DatabaseHelper`) of the
time-tracking application: the relational state (Clients, ClientDepartments,
TimeEntries, Invoices, InvoiceLineItems, InvoiceLineItems_TimeEntries) is a
record of row lists, and each helper method becomes a pure function on that
state.  Conventions:

* Numeric quantities (hours, rates, amounts) are exact rationals; Python
  float rounding is out of scope.
* Calendar dates are absolute day numbers (`Int`); `DATEADD(day, n, d)` and
  `timedelta(days = n)` are `d + n`.  The invoice date additionally carries
  its calendar year (`PyDate`), which the invoice-number format string uses.
* SQL `NULL` is `Option.none`; `ISNULL(x, y)` is `Option.getD`.
* `IDENTITY` columns are modelled by per-table counters in the state; a
  fresh row receives the counter value (`@@IDENTITY`) and the counter
  increments.  Row lookups by identity (`find?`) model the uniqueness of
  identity keys.
* `cursor.execute`/`conn.commit` sequences that matter for durability are
  modelled as an explicit action trace with commit markers (`DbAction`),
  so that the durably-visible state at any failure point is definable.
-/

/-- A row of `Clients`. -/
structure Client where
  clientID : Nat
  clientName : String
  defaultRate : ℚ
  paymentTerms : Int
  active : Bool
deriving DecidableEq

/-- A row of `ClientDepartments`. -/
structure Department where
  clientDepartmentID : Nat
  clientID : Nat
  departmentName : String
  billingRate : Option ℚ
  isActive : Bool
deriving DecidableEq

/-- A row of `TimeEntries`. -/
structure TimeEntry where
  entryID : Nat
  clientID : Nat
  deptID : Option Nat
  weekStartDate : Int
  dayOfWeek : Int
  hoursWorked : ℚ
  rateUsed : Option ℚ
  notes : String
deriving DecidableEq

/-- A Python `datetime.date` as used by `create_invoice`: its absolute day
number plus its calendar year (only `.year` is read, for the number format). -/
structure PyDate where
  year : Int
  day : Int
deriving DecidableEq

/-- A row of `Invoices`. -/
structure Invoice where
  invoiceID : Nat
  clientID : Nat
  invoiceNumber : String
  invoiceDate : Int
  dueDate : Int
  totalHours : ℚ
  totalAmount : ℚ
  status : String
  notes : String
deriving DecidableEq

/-- A row of `InvoiceLineItems`. -/
structure LineItem where
  lineItemID : Nat
  invoiceID : Nat
  deptID : Option Nat
  lineDescription : String
  billingCategory : String
  totalHours : ℚ
  hourlyRate : ℚ
  amount : ℚ
deriving DecidableEq

/-- A row of the junction table `InvoiceLineItems_TimeEntries`. -/
structure LinkRow where
  lineItemID : Nat
  timeEntryID : Nat
  hoursIncluded : ℚ
deriving DecidableEq

/-- The relational state of the helper's database. -/
structure DB where
  clients : List Client
  departments : List Department
  timeEntries : List TimeEntry
  invoices : List Invoice
  lineItems : List LineItem
  links : List LinkRow
  nextEntryId : Nat
  nextInvoiceId : Nat
  nextLineItemId : Nat
deriving DecidableEq

/-- Sum a rational-valued projection over a list (`SUM(...)` / Python `sum`). -/
def sumBy (l : List α) (f : α → ℚ) : ℚ := (l.map f).sum

/-- The errors the helper raises: `DatabaseError` and `ValidationError`
from `db_helper.py`. -/
inductive DbErr where
  | databaseError (msg : String)
  | validationError (msg : String)
deriving DecidableEq

attribute [local semireducible] Rat.mul Rat.add Rat.sub Rat.inv

/-! ## Time Ledger operations (`db_helper.py` lines 338-533) -/

/-- WHERE clause of the upsert lookup in `save_time_entry` (line 486-489):
`ClientID = ? AND WeekStartDate = ? AND DayOfWeek = ? AND ClientDepartmentID IS ?`
(null-safe comparison on the department). -/
def entry_key_matches (client_id : Nat) (week_start : Int) (day : Int)
    (dept_id : Option Nat) (t : TimeEntry) : Bool :=
  t.clientID == client_id && t.weekStartDate == week_start &&
    t.dayOfWeek == day && t.deptID == dept_id

/-- Embedding of `DatabaseHelper.save_time_entry` (lines 480-522): look up the
row keyed by (client, week start, day, department); if found, hours > 0
updates it in place (returning its id) and otherwise deletes it (returning
none); if absent, hours > 0 inserts a fresh row (returning the new identity)
and otherwise nothing happens. -/
def save_time_entry (db : DB) (client_id : Nat) (week_start : Int) (day : Int)
    (hours_worked rate_used : ℚ) (notes : String) (dept_id : Option Nat) :
    DB × Option Nat :=
  match db.timeEntries.find? (entry_key_matches client_id week_start day dept_id) with
  | some existing =>
    if 0 < hours_worked then
      ({ db with timeEntries := db.timeEntries.map fun t =>
          if t.entryID == existing.entryID then
            { t with hoursWorked := hours_worked, rateUsed := some rate_used,
                     notes := notes }
          else t },
       some existing.entryID)
    else
      ({ db with timeEntries :=
          db.timeEntries.filter fun t => t.entryID != existing.entryID },
       none)
  | none =>
    if 0 < hours_worked then
      ({ db with
          timeEntries := db.timeEntries ++
            [{ entryID := db.nextEntryId, clientID := client_id,
               deptID := dept_id, weekStartDate := week_start,
               dayOfWeek := day, hoursWorked := hours_worked,
               rateUsed := some rate_used, notes := notes }],
          nextEntryId := db.nextEntryId + 1 },
       some db.nextEntryId)
    else
      (db, none)

/-- One cell of the weekly grid dictionary built by `get_weekly_timesheet`. -/
structure DayCell where
  day : Int
  hours : ℚ
  rate : ℚ
  entry_id : Option Nat
  notes : String
deriving DecidableEq

/-- One client's slice of the weekly grid. -/
structure TimesheetRow where
  clientID : Nat
  clientName : String
  defaultRate : ℚ
  days : List DayCell
deriving DecidableEq

/-- The cell `get_weekly_timesheet` produces for a given active client and
day: the LEFT JOIN row against TimeEntries (the Python dict keeps the last
matching row when several match), with `ISNULL(t.HoursWorked, 0)`,
`ISNULL(t.RateUsed, c.DefaultRate)` and the Python truthiness fallback
`float(row.RateUsed) if row.RateUsed else float(row.DefaultRate)`. -/
def weekly_cell (db : DB) (cl : Client) (week_start : Int) (day : Int) : DayCell :=
  match (db.timeEntries.filter fun t =>
      t.clientID == cl.clientID && t.weekStartDate == week_start &&
        t.dayOfWeek == day).getLast? with
  | none =>
      { day := day, hours := 0, rate := cl.defaultRate, entry_id := none,
        notes := "" }
  | some t =>
      { day := day
        hours := t.hoursWorked
        rate := match t.rateUsed with
          | some r => if r == 0 then cl.defaultRate else r
          | none => cl.defaultRate
        entry_id := some t.entryID
        notes := t.notes }

/-- Embedding of `DatabaseHelper.get_weekly_timesheet` (lines 338-385):
all active clients CROSS JOIN days 1..7, LEFT JOIN TimeEntries on
(client, week start, day).  The SQL ORDER BY only fixes dict insertion
order, so the grid is modelled as the keyed list it denotes. -/
def get_weekly_timesheet (db : DB) (week_start : Int) : List TimesheetRow :=
  (db.clients.filter fun c => c.active).map fun cl =>
    { clientID := cl.clientID
      clientName := cl.clientName
      defaultRate := cl.defaultRate
      days := ([1, 2, 3, 4, 5, 6, 7] : List Int).map (weekly_cell db cl week_start) }

/-! ## Unbilled aggregation (`get_hours_grouped_by_department`, lines 537-599) -/

/-- Calendar date of a time entry: `DATEADD(day, t.DayOfWeek - 1, t.WeekStartDate)`. -/
def calDate (t : TimeEntry) : Int := t.weekStartDate + (t.dayOfWeek - 1)

/-- Whether an entry id has a row in `InvoiceLineItems_TimeEntries`
(the `t.EntryID NOT IN (SELECT ...)` subquery, negated). -/
def isLinked (db : DB) (entry_id : Nat) : Bool :=
  db.links.any fun l => l.timeEntryID == entry_id

/-- WHERE clause of the aggregation query (lines 555-561): the client's
entries whose calendar date lies in the inclusive range and that have no
link row. -/
def unbilled_where (db : DB) (client_id : Nat) (start_date end_date : Int)
    (t : TimeEntry) : Bool :=
  t.clientID == client_id && decide (start_date ≤ calDate t) &&
    decide (calDate t ≤ end_date) && !isLinked db t.entryID

/-- LEFT JOIN of a time entry's department id against `ClientDepartments`
(identity keys are unique, so the first matching row is the row). -/
def find_department (db : DB) (dept_id : Option Nat) : Option Department :=
  dept_id.bind fun i => db.departments.find? fun d => d.clientDepartmentID == i

/-- `ISNULL(cd.DepartmentName, 'General')`. -/
def dept_display_name (db : DB) (dept_id : Option Nat) : String :=
  ((find_department db dept_id).map fun d => d.departmentName).getD "General"

/-- The department's billing rate reached through the LEFT JOIN, if any. -/
def dept_billing_rate (db : DB) (dept_id : Option Nat) : Option ℚ :=
  (find_department db dept_id).bind fun d => d.billingRate

/-- Per-entry rate used by the aggregation's amount sum (line 550):
`ISNULL(t.RateUsed, ISNULL(cd.BillingRate, c.DefaultRate))`. -/
def entry_rate_used (db : DB) (cl : Client) (t : TimeEntry) : ℚ :=
  t.rateUsed.getD ((dept_billing_rate db t.deptID).getD cl.defaultRate)

/-- One department group of the aggregation result. -/
structure DeptGroup where
  clientDepartmentID : Option Nat
  departmentName : String
  billingRate : ℚ
  totalHours : ℚ
  totalAmount : ℚ
  entryIDs : List Nat
deriving DecidableEq

/-- The GROUP BY bucket for one department key (lines 545-551): hours and
amount sums plus the aggregated entry id list. -/
def mkDeptGroup (db : DB) (cl : Client) (rows : List TimeEntry)
    (key : Option Nat) : DeptGroup :=
  let g := rows.filter fun t => t.deptID == key
  { clientDepartmentID := key
    departmentName := dept_display_name db key
    billingRate := (dept_billing_rate db key).getD cl.defaultRate
    totalHours := sumBy g fun t => t.hoursWorked
    totalAmount := sumBy g fun t => t.hoursWorked * entry_rate_used db cl t
    entryIDs := g.map fun t => t.entryID }

/-- Result shape of `get_hours_grouped_by_department`. -/
structure GroupedHours where
  total_hours : ℚ
  total_amount : ℚ
  departments : List DeptGroup
deriving DecidableEq

/-- Ordering relation of `ORDER BY ISNULL(cd.DepartmentName, 'General')`. -/
def groupLE (a b : DeptGroup) : Prop := a.departmentName ≤ b.departmentName

instance : DecidableRel groupLE := fun a b =>
  inferInstanceAs (Decidable (a.departmentName ≤ b.departmentName))

instance : IsTotal DeptGroup groupLE :=
  ⟨fun a b => le_total a.departmentName b.departmentName⟩

instance : IsTrans DeptGroup groupLE :=
  ⟨fun _ _ _ h₁ h₂ => le_trans h₁ h₂⟩

/-- Embedding of `DatabaseHelper.get_hours_grouped_by_department`
(lines 537-599): the inner JOIN on Clients requires the client row; the
unbilled rows in the inclusive calendar-date range are grouped by
`ClientDepartmentID` (the joined name/rate columns are functions of it),
ordered by the displayed name, and summed. -/
def get_hours_grouped_by_department (db : DB) (client_id : Nat)
    (start_date end_date : Int) : GroupedHours :=
  match db.clients.find? (fun c => c.clientID == client_id) with
  | none => { total_hours := 0, total_amount := 0, departments := [] }
  | some cl =>
    let rows := db.timeEntries.filter (unbilled_where db client_id start_date end_date)
    let groups := List.insertionSort groupLE
      (((rows.map fun t => t.deptID).dedup).map (mkDeptGroup db cl rows))
    { total_hours := sumBy groups fun g => g.totalHours
      total_amount := sumBy groups fun g => g.totalAmount
      departments := groups }

/-! ## Invoice creation (`create_invoice`, lines 601-691) -/

/-- Python's `str.zfill`: left-pad with zeros to the given width. -/
def zfill (width : Nat) (s : String) : String :=
  String.mk (List.replicate (width - s.length) '0') ++ s

/-- The candidate number `f"INV-{invoice_date.year}-{str(attempt).zfill(4)}"`
(line 618). -/
def candidate_number (year : Int) (attempt : Nat) : String :=
  "INV-" ++ toString year ++ "-" ++ zfill 4 (toString attempt)

/-- The uniqueness probe `SELECT COUNT(*) FROM Invoices WHERE InvoiceNumber = ?`
(lines 619-622), as a Boolean: some existing invoice already carries the
candidate number. -/
def number_taken (db : DB) (cand : String) : Bool :=
  db.invoices.any fun i => i.invoiceNumber == cand

/-- The allocation loop `for attempt in range(1, 1000)` (lines 616-625):
probe sequence numbers 1..999 in order and return the first candidate no
existing invoice uses; `none` models reaching the end without a free number
(the explicit `raise DatabaseError("Could not generate unique invoice
number")` at line 628). -/
def allocate_invoice_number (db : DB) (year : Int) : Option String :=
  ((List.range' 1 999).find? fun attempt =>
      !number_taken db (candidate_number year attempt)).map
    (candidate_number year)

/-- One line-item spec of the `items` argument of `create_invoice`
(Python dicts `{ dept_id, line_description, billing_category, total_hours,
hourly_rate, entry_ids }`; absent keys take the `dict.get` defaults). -/
structure ItemSpec where
  dept_id : Option Nat
  line_description : String := "Services Rendered"
  billing_category : String := "General"
  total_hours : ℚ := 0
  hourly_rate : ℚ := 0
  entry_ids : List Nat := []
deriving DecidableEq

/-- Python `item.get('dept_id') or None`: a zero department id is also
treated as absent (truthiness). -/
def py_or_none (o : Option Nat) : Option Nat :=
  match o with
  | some 0 => none
  | x => x

/-- One write the body of `create_invoice` issues against the connection,
or a `conn.commit()`. -/
inductive DbAction where
  | insertInvoice (inv : Invoice)
  | insertLineItem (li : LineItem)
  | insertLink (l : LinkRow)
  | commit
deriving DecidableEq

/-- Connection state mid-transaction: the durably committed database and the
pending (uncommitted) view.  An error aborts the call before any further
commit, so the durable component is what such a failure leaves behind. -/
structure TxState where
  durable : DB
  pending : DB
deriving DecidableEq

/-- Apply one action: inserts extend the pending view (and advance the
IDENTITY counter past the inserted key); a commit makes the pending view
durable. -/
def applyAction (st : TxState) (a : DbAction) : TxState :=
  match a with
  | .insertInvoice inv =>
      { st with pending := { st.pending with
          invoices := st.pending.invoices ++ [inv],
          nextInvoiceId := inv.invoiceID + 1 } }
  | .insertLineItem li =>
      { st with pending := { st.pending with
          lineItems := st.pending.lineItems ++ [li],
          nextLineItemId := li.lineItemID + 1 } }
  | .insertLink l =>
      { st with pending := { st.pending with
          links := st.pending.links ++ [l] } }
  | .commit => { st with durable := st.pending }

/-- The durably visible database after executing a prefix of the call's
actions (a call that fails right after this prefix leaves exactly this
state behind). -/
def durableAfter (db : DB) (actions : List DbAction) : DB :=
  (actions.foldl applyAction { durable := db, pending := db }).durable

/-- The line-item phase of `create_invoice` (lines 650-679): for each item
insert the `InvoiceLineItems` row (identity `next_id`), then — when the id
is truthy and `entry_ids` is non-empty — one junction row per entry id via
`INSERT ... SELECT ?, ?, t.HoursWorked FROM TimeEntries WHERE t.EntryID = ?`
(an id with no matching TimeEntry row inserts nothing).  No query against
`InvoiceLineItems_TimeEntries` is ever made: already-linked entries are
linked again without any check. -/
def line_item_actions (db : DB) (invoice_id : Nat) :
    Nat → List ItemSpec → List DbAction
  | _, [] => []
  | next_id, item :: rest =>
    let li : LineItem :=
      { lineItemID := next_id
        invoiceID := invoice_id
        deptID := py_or_none item.dept_id
        lineDescription := item.line_description
        billingCategory := item.billing_category
        totalHours := item.total_hours
        hourlyRate := item.hourly_rate
        amount := item.total_hours * item.hourly_rate }
    let links : List LinkRow :=
      if next_id == 0 then []
      else item.entry_ids.filterMap fun eid =>
        (db.timeEntries.find? fun t => t.entryID == eid).map fun t =>
          { lineItemID := next_id, timeEntryID := eid,
            hoursIncluded := t.hoursWorked }
    .insertLineItem li :: (links.map .insertLink ++
      line_item_actions db invoice_id (next_id + 1) rest)

/-- The write/commit trace of `create_invoice` (lines 601-691), `none` when
number allocation is exhausted (the only raise before any write). The header
is inserted and committed (lines 638-644) BEFORE the line-item phase, whose
writes are only committed by the second `conn.commit()` at line 681. -/
def create_invoice_writes (db : DB) (client_id : Nat) (invoice_date : PyDate)
    (items : List ItemSpec) (notes : String) : Option (Nat × List DbAction) :=
  let total_hours := sumBy items fun item => item.total_hours
  let total_amount := sumBy items fun item => item.hourly_rate * item.total_hours
  match allocate_invoice_number db invoice_date.year with
  | none => none
  | some invoice_number =>
    let payment_terms : Int :=
      match db.clients.find? (fun c => c.clientID == client_id) with
      | some cl => cl.paymentTerms
      | none => 30
    let due_date := invoice_date.day + payment_terms
    let invoice_id := db.nextInvoiceId
    let inv : Invoice :=
      { invoiceID := invoice_id
        clientID := client_id
        invoiceNumber := invoice_number
        invoiceDate := invoice_date.day
        dueDate := due_date
        totalHours := total_hours
        totalAmount := total_amount
        status := "Draft"
        notes := notes }
    some (invoice_id,
      DbAction.insertInvoice inv :: DbAction.commit ::
        (line_item_actions db invoice_id db.nextLineItemId items ++
          [DbAction.commit]))

/-- Embedding of `DatabaseHelper.create_invoice`: the id returned and the
durable state after the full trace; allocation exhaustion surfaces as the
`DatabaseError` re-raised by the function's blanket handler (lines 686-688). -/
def create_invoice (db : DB) (client_id : Nat) (invoice_date : PyDate)
    (items : List ItemSpec) (notes : String) : Except DbErr (Nat × DB) :=
  match create_invoice_writes db client_id invoice_date items notes with
  | none => .error (.databaseError
      "Failed to create invoice: Could not generate unique invoice number")
  | some (invoice_id, actions) => .ok (invoice_id, durableAfter db actions)

/-! ## Invoice status update and deletion (lines 812-838, 864-882) -/

/-- The `valid_statuses` list of `update_invoice_status` (line 816). -/
def valid_statuses : List String := ["Draft", "Sent", "Paid", "Overdue", "Cancelled"]

/-- Embedding of `DatabaseHelper.update_invoice_status` (lines 812-838): an
out-of-range status raises `ValidationError`, but that exception is caught
by the function's own blanket `except Exception` handler and re-raised as
`DatabaseError(f"Failed to update invoice: {str(e)}")` — so the caller
observes a `DatabaseError`.  A valid status is written unconditionally to
every row with the given invoice id, whatever status it currently has. -/
def update_invoice_status (db : DB) (invoice_id : Nat) (status : String) :
    Except DbErr (DB × Bool) :=
  if status ∈ valid_statuses then
    .ok ({ db with invoices := db.invoices.map fun i =>
            if i.invoiceID == invoice_id then { i with status := status } else i },
         true)
  else
    .error (.databaseError ("Failed to update invoice: Invalid status. Must be one of: "
      ++ String.intercalate ", " valid_statuses))

/-- Modelled from the spec: `DatabaseHelper.delete_invoice` (lines 864-882)
issues only `DELETE FROM Invoices WHERE InvoiceID = ?` and relies on the
schema's cascading deletes ("and its items via cascade", line 865); the
schema DDL is not among the included sources, so the cascade over
`InvoiceLineItems` and `InvoiceLineItems_TimeEntries` is modelled after
spec §3/§4.6: header, line items and entry links are removed by the same
delete operation. -/
def delete_invoice (db : DB) (invoice_id : Nat) : DB :=
  let cascaded := (db.lineItems.filter fun li => li.invoiceID == invoice_id).map
    fun li => li.lineItemID
  { db with
      invoices := db.invoices.filter fun i => i.invoiceID != invoice_id
      lineItems := db.lineItems.filter fun li => li.invoiceID != invoice_id
      links := db.links.filter fun l => !cascaded.contains l.lineItemID }

instance {ε α : Type} [DecidableEq ε] [DecidableEq α] : DecidableEq (Except ε α) :=
  fun x y =>
    match x, y with
    | .ok a, .ok b =>
      if h : a = b then isTrue (by rw [h])
      else isFalse (by intro hh; cases hh; exact h rfl)
    | .error a, .error b =>
      if h : a = b then isTrue (by rw [h])
      else isFalse (by intro hh; cases hh; exact h rfl)
    | .ok _, .error _ => isFalse (by intro hh; exact Except.noConfusion hh)
    | .error _, .ok _ => isFalse (by intro hh; exact Except.noConfusion hh)

/-! ## Concrete states used by the closed theorems -/

/-- A client with default rate 100 and 30-day terms. -/
def acmeClient : Client :=
  { clientID := 1, clientName := "Acme", defaultRate := 100,
    paymentTerms := 30, active := true }

/-- A time entry of 8 hours for client 1 on the Monday of week 0. -/
def mondayEntry : TimeEntry :=
  { entryID := 7, clientID := 1, deptID := none, weekStartDate := 0,
    dayOfWeek := 1, hoursWorked := 8, rateUsed := some 100, notes := "" }

/-- A database with one client and one unbilled time entry. -/
def sampleDB : DB :=
  { clients := [acmeClient]
    departments := []
    timeEntries := [mondayEntry]
    invoices := [], lineItems := [], links := []
    nextEntryId := 8, nextInvoiceId := 1, nextLineItemId := 1 }

/-- The line-item spec list billing entry 7: 8 hours at rate 100. -/
def sampleItems : List ItemSpec :=
  [{ dept_id := none, line_description := "Week 1", total_hours := 8,
     hourly_rate := 100, entry_ids := [7] }]

/-- Like `sampleDB`, but entry 7 is already billed: invoice 1 exists with
line item 1 and a link row claiming entry 7. -/
def billedDB : DB :=
  { sampleDB with
    invoices := [{ invoiceID := 1, clientID := 1,
                   invoiceNumber := "INV-2024-0001", invoiceDate := 100,
                   dueDate := 130, totalHours := 8, totalAmount := 800,
                   status := "Draft", notes := "" }]
    lineItems := [{ lineItemID := 1, invoiceID := 1, deptID := none,
                    lineDescription := "Week 1", billingCategory := "General",
                    totalHours := 8, hourlyRate := 100, amount := 800 }]
    links := [{ lineItemID := 1, timeEntryID := 7, hoursIncluded := 8 }]
    nextInvoiceId := 2, nextLineItemId := 2 }

/-! ## C1 — create_invoice never checks the link table -/

/-- C1: the claim says an invoice-creation call whose specs contain an
entry id that is already linked fails with ConflictAlreadyBilled, so each
TimeEntry id appears in at most one link ever.  The code has no such check:
evaluated on `billedDB` (entry 7 already linked to line item 1), the call
succeeds and inserts a second junction row for entry 7, which then appears
in two `InvoiceLineItems_TimeEntries` rows. -/
theorem create_invoice_silently_relinks :
    ((create_invoice billedDB 1 ⟨2024, 100⟩ sampleItems ("")).toOption.map
        fun r => r.2.links.countP fun l => l.timeEntryID == 7) = some 2 := by
  decide

/-! ## C2 — the header commit precedes the line-item writes -/

/-- C2: the claim says the header, line-item and link writes of one
`create_invoice` call are a single atomic unit, rolled back in full on any
mid-call failure.  The code calls `conn.commit()` at line 644, directly
after inserting the header and before any line-item or link insert (the
second commit is only at line 681), and its exception handler performs no
rollback.  Evaluated on `sampleDB`: the call's trace has five actions
(header insert, commit, line-item insert, link insert, commit); at every
failure point strictly after the first commit and before the final one
(prefixes of length 2, 3 and 4) the durable state already contains the
invoice header but no line item and no link — an invoice with missing line
items that no rollback removes. -/
theorem create_invoice_commits_header_before_line_items :
    ((create_invoice_writes sampleDB 1 ⟨2024, 100⟩ sampleItems ("")).map
        fun p => p.2.length) = some 5 ∧
    (((create_invoice_writes sampleDB 1 ⟨2024, 100⟩ sampleItems ("")).map
        fun p => p.2.get? 1) = some (some DbAction.commit)) ∧
    (∀ k ∈ ([2, 3, 4] : List Nat),
      (durableAfter sampleDB
          ((((create_invoice_writes sampleDB 1 ⟨2024, 100⟩ sampleItems ("")).map
              Prod.snd).getD []).take k)).invoices.length = 1 ∧
      (durableAfter sampleDB
          ((((create_invoice_writes sampleDB 1 ⟨2024, 100⟩ sampleItems ("")).map
              Prod.snd).getD []).take k)).lineItems = [] ∧
      (durableAfter sampleDB
          ((((create_invoice_writes sampleDB 1 ⟨2024, 100⟩ sampleItems ("")).map
              Prod.snd).getD []).take k)).links = []) := by
  decide

/-! ## C10 — the ValidationError is swallowed into a DatabaseError -/

/-- A database holding a single invoice, currently Cancelled. -/
def statusDB : DB :=
  { sampleDB with
    invoices := [{ invoiceID := 1, clientID := 1,
                   invoiceNumber := "INV-2024-0001", invoiceDate := 100,
                   dueDate := 130, totalHours := 8, totalAmount := 800,
                   status := "Cancelled", notes := "" }]
    nextInvoiceId := 2 }

/-- C10: the claim says an out-of-range status is rejected with a
ValidationError reported to the caller as such, and any of the five values
is set unconditionally.  Evaluated at the failing input
`update_invoice_status(1, "Foo")`: the caller receives a `DatabaseError`
(the function's blanket `except Exception` re-wraps its own
`ValidationError`), not a ValidationError.  The unconditional-set half does
hold: "Paid" overwrites a Cancelled invoice. -/
theorem update_invoice_status_wraps_validation :
    update_invoice_status statusDB 1 ("Foo") =
      .error (.databaseError
        ("Failed to update invoice: Invalid status. Must be one of: Draft, Sent, Paid, Overdue, Cancelled")) ∧
    (∀ err, update_invoice_status statusDB 1 ("Foo") ≠ .error (.validationError err)) ∧
    ((update_invoice_status statusDB 1 ("Paid")).toOption.map
        fun r => r.1.invoices.map fun i => i.status) = some ["Paid"] := by
  refine ⟨by decide, fun err => ?_, by decide⟩
  intro h
  simp only [update_invoice_status] at h
  split at h
  · exact Except.noConfusion h
  · rw [Except.error.injEq] at h
    exact DbErr.noConfusion h

/-! ## Structure of a successful create_invoice call -/

/-- Apply one action to a plain database, ignoring transaction boundaries. -/
def applyOne (db : DB) (a : DbAction) : DB :=
  match a with
  | .insertInvoice inv =>
      { db with invoices := db.invoices ++ [inv],
                nextInvoiceId := inv.invoiceID + 1 }
  | .insertLineItem li =>
      { db with lineItems := db.lineItems ++ [li],
                nextLineItemId := li.lineItemID + 1 }
  | .insertLink l => { db with links := db.links ++ [l] }
  | .commit => db

/-- Apply a list of actions to a plain database. -/
def applyPending (db : DB) : List DbAction → DB
  | [] => db
  | a :: tr => applyPending (applyOne db a) tr

/-- The invoice rows a trace inserts. -/
def insertedInvoices (tr : List DbAction) : List Invoice :=
  tr.filterMap fun a =>
    match a with
    | .insertInvoice inv => some inv
    | _ => none

theorem applyAction_pending (st : TxState) (a : DbAction) :
    (applyAction st a).pending = applyOne st.pending a := by
  cases a <;> rfl

theorem foldl_applyAction_pending (tr : List DbAction) (st : TxState) :
    (tr.foldl applyAction st).pending = applyPending st.pending tr := by
  induction tr generalizing st with
  | nil => rfl
  | cons a tr ih =>
      rw [List.foldl_cons, ih, applyAction_pending]
      rfl

/-- A trace ending in a commit leaves every write durably applied. -/
theorem durableAfter_append_commit (db : DB) (tr : List DbAction) :
    durableAfter db (tr ++ [DbAction.commit]) = applyPending db tr := by
  unfold durableAfter
  rw [List.foldl_append, List.foldl_cons, List.foldl_nil]
  show (tr.foldl applyAction _).pending = _
  exact foldl_applyAction_pending tr _

theorem applyPending_invoices (tr : List DbAction) (db : DB) :
    (applyPending db tr).invoices = db.invoices ++ insertedInvoices tr := by
  induction tr generalizing db with
  | nil => simp [applyPending, insertedInvoices]
  | cons a tr ih =>
      cases a <;>
        simp [applyPending, applyOne, insertedInvoices, List.filterMap_cons, ih,
          List.append_assoc]

theorem applyPending_timeEntries (tr : List DbAction) (db : DB) :
    (applyPending db tr).timeEntries = db.timeEntries := by
  induction tr generalizing db with
  | nil => rfl
  | cons a tr ih => cases a <;> simp [applyPending, applyOne, ih]

theorem applyPending_clients (tr : List DbAction) (db : DB) :
    (applyPending db tr).clients = db.clients := by
  induction tr generalizing db with
  | nil => rfl
  | cons a tr ih => cases a <;> simp [applyPending, applyOne, ih]

theorem insertedInvoices_cons_lineItem (li : LineItem) (tr : List DbAction) :
    insertedInvoices (DbAction.insertLineItem li :: tr) = insertedInvoices tr := by
  simp [insertedInvoices, List.filterMap_cons]

theorem insertedInvoices_cons_invoice (inv : Invoice) (tr : List DbAction) :
    insertedInvoices (DbAction.insertInvoice inv :: tr) =
      inv :: insertedInvoices tr := by
  simp [insertedInvoices, List.filterMap_cons]

theorem insertedInvoices_append (tr₁ tr₂ : List DbAction) :
    insertedInvoices (tr₁ ++ tr₂) = insertedInvoices tr₁ ++ insertedInvoices tr₂ :=
  List.filterMap_append _ _ _

theorem insertedInvoices_map_insertLink (links : List LinkRow) :
    insertedInvoices (links.map DbAction.insertLink) = [] := by
  induction links with
  | nil => rfl
  | cons l ls ih =>
      rw [List.map_cons, insertedInvoices, List.filterMap_cons]
      exact ih

theorem insertedInvoices_line_item_actions (db : DB) (invoice_id : Nat) :
    ∀ (next_id : Nat) (items : List ItemSpec),
      insertedInvoices (line_item_actions db invoice_id next_id items) = [] := by
  intro next_id items
  induction items generalizing next_id with
  | nil => rfl
  | cons item rest ih =>
      show insertedInvoices (DbAction.insertLineItem _ :: (_ ++ _)) = []
      rw [insertedInvoices_cons_lineItem, insertedInvoices_append,
        insertedInvoices_map_insertLink, ih, List.append_nil]

/-- The invoice header `create_invoice` writes, as computed at lines 611-642:
totals summed from the item specs, the allocated number, status Draft, and
due date from the freshly fetched payment terms (default 30). -/
def invoice_header (db : DB) (client_id : Nat) (invoice_date : PyDate)
    (items : List ItemSpec) (notes : String) (number : String) : Invoice :=
  { invoiceID := db.nextInvoiceId
    clientID := client_id
    invoiceNumber := number
    invoiceDate := invoice_date.day
    dueDate := invoice_date.day +
      (match db.clients.find? (fun c => c.clientID == client_id) with
       | some cl => cl.paymentTerms
       | none => 30)
    totalHours := sumBy items fun item => item.total_hours
    totalAmount := sumBy items fun item => item.hourly_rate * item.total_hours
    status := "Draft"
    notes := notes }

/-- When number allocation succeeds, `create_invoice` returns the fresh
invoice id and the database obtained by applying the header insert and the
line-item phase (every trace prefix up to the final commit ends committed). -/
theorem create_invoice_ok_eq (db : DB) (client_id : Nat)
    (invoice_date : PyDate) (items : List ItemSpec) (notes : String)
    (number : String)
    (halloc : allocate_invoice_number db invoice_date.year = some number) :
    create_invoice db client_id invoice_date items notes =
      .ok (db.nextInvoiceId,
        applyPending db
          (DbAction.insertInvoice
              (invoice_header db client_id invoice_date items notes number) ::
            line_item_actions db db.nextInvoiceId db.nextLineItemId items)) := by
  unfold create_invoice create_invoice_writes
  rw [halloc]
  show Except.ok (db.nextInvoiceId,
    durableAfter db
      (DbAction.insertInvoice
          (invoice_header db client_id invoice_date items notes number) ::
        DbAction.commit ::
        (line_item_actions db db.nextInvoiceId db.nextLineItemId items ++
          [DbAction.commit]))) = _
  rw [show DbAction.insertInvoice
        (invoice_header db client_id invoice_date items notes number) ::
        DbAction.commit ::
        (line_item_actions db db.nextInvoiceId db.nextLineItemId items ++
          [DbAction.commit]) =
      (DbAction.insertInvoice
          (invoice_header db client_id invoice_date items notes number) ::
        DbAction.commit ::
        line_item_actions db db.nextInvoiceId db.nextLineItemId items) ++
        [DbAction.commit] from by simp]
  rw [durableAfter_append_commit]
  rfl

/-- When number allocation succeeds, the state `create_invoice` returns has
gained exactly the computed header in its invoice table, with time entries
and clients untouched. -/
theorem create_invoice_ok_parts (db : DB) (client_id : Nat)
    (invoice_date : PyDate) (items : List ItemSpec) (notes : String)
    (number : String)
    (halloc : allocate_invoice_number db invoice_date.year = some number) :
    ∃ db', create_invoice db client_id invoice_date items notes =
        .ok (db.nextInvoiceId, db') ∧
      db'.invoices = db.invoices ++
        [invoice_header db client_id invoice_date items notes number] ∧
      db'.timeEntries = db.timeEntries ∧
      db'.clients = db.clients := by
  refine ⟨_,
    create_invoice_ok_eq db client_id invoice_date items notes number halloc,
    ?_, ?_, ?_⟩
  · rw [applyPending_invoices, insertedInvoices_cons_invoice,
      insertedInvoices_line_item_actions]
  · rw [applyPending_timeEntries]
  · rw [applyPending_clients]

/-! ## C7 — invoice number allocation -/

theorem find?_range'_first (p : Nat → Bool) (n : Nat) :
    ∀ (s len : Nat), s ≤ n → n < s + len → p n = true →
      (∀ m, s ≤ m → m < n → p m = false) →
      (List.range' s len).find? p = some n := by
  intro s len
  induction len generalizing s with
  | zero => intro h1 h2 _ _; omega
  | succ len ih =>
      intro h1 h2 hp hmin
      rw [List.range'_succ]
      rcases eq_or_lt_of_le h1 with hs | hs
      · subst hs
        exact List.find?_cons_of_pos _ hp
      · rw [List.find?_cons_of_neg]
        · exact ih (s + 1) hs (by omega) hp fun m hm1 hm2 => hmin m (by omega) hm2
        · rw [hmin s le_rfl hs]
          simp

/-- C7: invoice number allocation probes sequence numbers 1..999 in order
against the existing invoice numbers and returns the first unused one,
rendered as INV-(year)-(4-digit zero-padded sequence); when every number
1..999 is taken, create_invoice fails with the explicit allocation-
exhaustion error (raised at line 628 and surfaced through the
DatabaseError wrapper). -/
theorem invoice_number_allocation (db : DB) (client_id : Nat)
    (invoice_date : PyDate) (items : List ItemSpec) (notes : String) (n : Nat)
    (h1 : 1 ≤ n) (h2 : n ≤ 999)
    (h3 : number_taken db (candidate_number invoice_date.year n) = false)
    (h4 : ∀ m, 1 ≤ m → m < n →
      number_taken db (candidate_number invoice_date.year m) = true) :
    allocate_invoice_number db invoice_date.year =
      some (candidate_number invoice_date.year n) ∧
    candidate_number invoice_date.year n =
      "INV-" ++ toString invoice_date.year ++ "-" ++ zfill 4 (toString n) ∧
    (∃ db', create_invoice db client_id invoice_date items notes =
        .ok (db.nextInvoiceId, db') ∧
      db'.invoices = db.invoices ++
        [invoice_header db client_id invoice_date items notes
          (candidate_number invoice_date.year n)]) ∧
    (∀ db₂ : DB,
      (∀ m, 1 ≤ m → m ≤ 999 →
        number_taken db₂ (candidate_number invoice_date.year m) = true) →
      create_invoice db₂ client_id invoice_date items notes =
        .error (.databaseError
          ("Failed to create invoice: Could not generate unique invoice number"))) := by
  have hfound : allocate_invoice_number db invoice_date.year =
      some (candidate_number invoice_date.year n) := by
    unfold allocate_invoice_number
    rw [find?_range'_first _ n 1 999 h1 (by omega) (by rw [h3]; rfl)
      fun m hm1 hm2 => by rw [h4 m hm1 hm2]; rfl]
    rfl
  refine ⟨hfound, rfl, ?_, ?_⟩
  · obtain ⟨db', heq, hinv, -, -⟩ :=
      create_invoice_ok_parts db client_id invoice_date items notes _ hfound
    exact ⟨db', heq, hinv⟩
  · intro db₂ htaken
    have hnone : allocate_invoice_number db₂ invoice_date.year = none := by
      unfold allocate_invoice_number
      rw [List.find?_eq_none.mpr]
      · rfl
      · intro x hx
        obtain ⟨hx1, hx2⟩ := List.mem_range'_1.mp hx
        rw [htaken x hx1 (by omega)]
        simp
    unfold create_invoice create_invoice_writes
    rw [hnone]

/-- Like `sampleDB`, but number INV-2024-0001 is already used. -/
def takenDB : DB :=
  { sampleDB with
    invoices := [{ invoiceID := 1, clientID := 1,
                   invoiceNumber := "INV-2024-0001", invoiceDate := 90,
                   dueDate := 120, totalHours := 1, totalAmount := 100,
                   status := "Sent", notes := "" }]
    nextInvoiceId := 2 }

/-- A database whose year-2024 number space 0001..0999 is fully used. -/
def exhaustedDB : DB :=
  { sampleDB with
    invoices := (List.range' 1 999).map fun m =>
      { invoiceID := m, clientID := 1,
        invoiceNumber := candidate_number 2024 m, invoiceDate := 90,
        dueDate := 120, totalHours := 0, totalAmount := 0,
        status := "Sent", notes := "" }
    nextInvoiceId := 1000 }

theorem exhaustedDB_all_taken : ∀ m, 1 ≤ m → m ≤ 999 →
    number_taken exhaustedDB (candidate_number 2024 m) = true := by
  intro m hm1 hm2
  apply List.any_eq_true.mpr
  refine ⟨{ invoiceID := m, clientID := 1,
            invoiceNumber := candidate_number 2024 m, invoiceDate := 90,
            dueDate := 120, totalHours := 0, totalAmount := 0,
            status := "Sent", notes := "" }, ?_, ?_⟩
  · exact List.mem_map.mpr ⟨m, List.mem_range'_1.mpr ⟨hm1, by omega⟩, rfl⟩
  · exact beq_self_eq_true _

theorem invoice_number_allocation_witness :
    allocate_invoice_number takenDB 2024 = some (candidate_number 2024 2) ∧
    create_invoice exhaustedDB 1 ⟨2024, 100⟩ [] ("") =
      .error (.databaseError
        ("Failed to create invoice: Could not generate unique invoice number")) := by
  constructor
  · exact (invoice_number_allocation takenDB 1 ⟨2024, 100⟩ [] ("") 2
      (by decide) (by decide) (by decide)
      (by intro m hm1 hm2; interval_cases m; decide)).1
  · exact (invoice_number_allocation takenDB 1 ⟨2024, 100⟩ [] ("") 2
      (by decide) (by decide) (by decide)
      (by intro m hm1 hm2; interval_cases m; decide)).2.2.2
      exhaustedDB exhaustedDB_all_taken

/-! ## C8 — invoice header totals, status and due date -/

/-- C8: every invoice created by a successful create_invoice call has
TotalHours equal to the sum of the specs' hours, TotalAmount equal to the
sum of hours times rate over the specs, status Draft, and DueDate equal to
the invoice date plus the client's payment terms (30 when the client row
is missing). -/
theorem create_invoice_header_fields (db : DB) (client_id : Nat)
    (invoice_date : PyDate) (items : List ItemSpec) (notes : String)
    (number : String)
    (halloc : allocate_invoice_number db invoice_date.year = some number) :
    ∃ db' hdr, create_invoice db client_id invoice_date items notes =
        .ok (db.nextInvoiceId, db') ∧
      db'.invoices = db.invoices ++ [hdr] ∧
      hdr.totalHours = sumBy items (fun item => item.total_hours) ∧
      hdr.totalAmount = sumBy items (fun item => item.total_hours * item.hourly_rate) ∧
      hdr.status = "Draft" ∧
      hdr.dueDate = invoice_date.day +
        (match db.clients.find? (fun c => c.clientID == client_id) with
         | some cl => cl.paymentTerms
         | none => 30) := by
  obtain ⟨db', heq, hinv, -, -⟩ :=
    create_invoice_ok_parts db client_id invoice_date items notes number halloc
  refine ⟨db', _, heq, hinv, rfl, ?_, rfl, rfl⟩
  show sumBy items (fun item => item.hourly_rate * item.total_hours) = _
  unfold sumBy
  exact congrArg List.sum (List.map_congr_left fun a _ => mul_comm _ _)

theorem create_invoice_header_fields_witness :
    ∃ db' hdr, create_invoice sampleDB 1 ⟨2024, 100⟩ sampleItems ("") =
        .ok (sampleDB.nextInvoiceId, db') ∧
      db'.invoices = sampleDB.invoices ++ [hdr] ∧
      hdr.totalHours = sumBy sampleItems (fun item => item.total_hours) ∧
      hdr.totalAmount =
        sumBy sampleItems (fun item => item.total_hours * item.hourly_rate) ∧
      hdr.status = "Draft" ∧
      hdr.dueDate = (100 : Int) +
        (match sampleDB.clients.find? (fun c => c.clientID == 1) with
         | some cl => cl.paymentTerms
         | none => 30) :=
  create_invoice_header_fields sampleDB 1 ⟨2024, 100⟩ sampleItems ("")
    ("INV-2024-0001") (by decide)

/-! ## C4 — characterization of the unbilled aggregation -/

/-- The rows the aggregation query's WHERE clause selects, as a proposition:
the client's entries whose calendar date lies in the inclusive range and
that have no junction row. -/
def UnbilledRow (db : DB) (client_id : Nat) (start_date end_date : Int)
    (t : TimeEntry) : Prop :=
  t.clientID = client_id ∧ start_date ≤ calDate t ∧ calDate t ≤ end_date ∧
    isLinked db t.entryID = false

/-- The filtered row set of the aggregation query. -/
def unbilledRows (db : DB) (client_id : Nat) (start_date end_date : Int) :
    List TimeEntry :=
  db.timeEntries.filter (unbilled_where db client_id start_date end_date)

theorem unbilled_where_iff (db : DB) (client_id : Nat) (s e : Int)
    (t : TimeEntry) :
    unbilled_where db client_id s e t = true ↔ UnbilledRow db client_id s e t := by
  unfold unbilled_where UnbilledRow
  simp [Bool.and_eq_true, decide_eq_true_eq, Bool.not_eq_true', and_assoc]

theorem mem_unbilledRows (db : DB) (client_id : Nat) (s e : Int)
    (t : TimeEntry) :
    t ∈ unbilledRows db client_id s e ↔
      t ∈ db.timeEntries ∧ UnbilledRow db client_id s e t := by
  rw [unbilledRows, List.mem_filter, unbilled_where_iff]

theorem grouped_departments_eq (db : DB) (client_id : Nat) (s e : Int)
    (cl : Client)
    (hcl : db.clients.find? (fun c => c.clientID == client_id) = some cl) :
    (get_hours_grouped_by_department db client_id s e).departments =
      List.insertionSort groupLE
        ((((unbilledRows db client_id s e).map fun t => t.deptID).dedup).map
          (mkDeptGroup db cl (unbilledRows db client_id s e))) := by
  unfold get_hours_grouped_by_department
  rw [hcl]
  rfl

theorem mem_groups_iff (db : DB) (client_id : Nat) (s e : Int) (cl : Client)
    (hcl : db.clients.find? (fun c => c.clientID == client_id) = some cl)
    (g : DeptGroup) :
    g ∈ (get_hours_grouped_by_department db client_id s e).departments ↔
      ∃ key, key ∈ ((unbilledRows db client_id s e).map fun t => t.deptID).dedup ∧
        g = mkDeptGroup db cl (unbilledRows db client_id s e) key := by
  rw [grouped_departments_eq db client_id s e cl hcl,
    (List.perm_insertionSort groupLE _).mem_iff, List.mem_map]
  constructor
  · rintro ⟨key, hkey, rfl⟩
    exact ⟨key, hkey, rfl⟩
  · rintro ⟨key, hkey, rfl⟩
    exact ⟨key, hkey, rfl⟩

theorem mem_entryIDs_mkDeptGroup (db : DB) (cl : Client)
    (rows : List TimeEntry) (key : Option Nat) (eid : Nat) :
    eid ∈ (mkDeptGroup db cl rows key).entryIDs ↔
      ∃ t, t ∈ rows ∧ t.deptID = key ∧ t.entryID = eid := by
  unfold mkDeptGroup
  simp only [List.mem_map, List.mem_filter, beq_iff_eq]
  constructor
  · rintro ⟨t, ⟨ht, hdept⟩, rfl⟩
    exact ⟨t, ht, hdept, rfl⟩
  · rintro ⟨t, ht, hdept, rfl⟩
    exact ⟨t, ⟨ht, hdept⟩, rfl⟩

theorem mem_dedup_keys (rows : List TimeEntry) (key : Option Nat) :
    key ∈ ((rows.map fun t => t.deptID).dedup) ↔ ∃ t ∈ rows, t.deptID = key := by
  rw [List.mem_dedup, List.mem_map]

/-- C4: the unbilled aggregation returns exactly the client's time entries
whose calendar date (week start plus day-of-week minus 1) lies in the
inclusive range and whose id has no junction row; entries are grouped by
department id, a group with no department is the synthetic "General"
bucket, and the groups are ordered by department name ascending. -/
theorem unbilled_grouping_characterization (db : DB) (client_id : Nat)
    (s e : Int) (cl : Client)
    (hcl : db.clients.find? (fun c => c.clientID == client_id) = some cl)
    (hids : ((db.timeEntries.map fun t => t.entryID)).Nodup) :
    (∀ eid : Nat,
      (∃ g ∈ (get_hours_grouped_by_department db client_id s e).departments,
        eid ∈ g.entryIDs) ↔
      (∃ t ∈ db.timeEntries, t.entryID = eid ∧ UnbilledRow db client_id s e t)) ∧
    (∀ g ∈ (get_hours_grouped_by_department db client_id s e).departments,
      ∀ t ∈ db.timeEntries, UnbilledRow db client_id s e t →
        (t.entryID ∈ g.entryIDs ↔ g.clientDepartmentID = t.deptID)) ∧
    (∀ g ∈ (get_hours_grouped_by_department db client_id s e).departments,
      g.clientDepartmentID = none → g.departmentName = "General") ∧
    List.Sorted (fun g₁ g₂ : DeptGroup => g₁.departmentName ≤ g₂.departmentName)
      (get_hours_grouped_by_department db client_id s e).departments := by
  refine ⟨?_, ?_, ?_, ?_⟩
  · intro eid
    constructor
    · rintro ⟨g, hg, heid⟩
      obtain ⟨key, -, rfl⟩ := (mem_groups_iff db client_id s e cl hcl g).mp hg
      obtain ⟨t, htr, -, rfl⟩ :=
        (mem_entryIDs_mkDeptGroup db cl _ key eid).mp heid
      obtain ⟨ht, hu⟩ := (mem_unbilledRows db client_id s e t).mp htr
      exact ⟨t, ht, rfl, hu⟩
    · rintro ⟨t, ht, rfl, hu⟩
      have htr : t ∈ unbilledRows db client_id s e :=
        (mem_unbilledRows db client_id s e t).mpr ⟨ht, hu⟩
      refine ⟨mkDeptGroup db cl (unbilledRows db client_id s e) t.deptID,
        (mem_groups_iff db client_id s e cl hcl _).mpr
          ⟨t.deptID, (mem_dedup_keys _ _).mpr ⟨t, htr, rfl⟩, rfl⟩,
        (mem_entryIDs_mkDeptGroup db cl _ t.deptID t.entryID).mpr
          ⟨t, htr, rfl, rfl⟩⟩
  · intro g hg t ht hu
    obtain ⟨key, -, rfl⟩ := (mem_groups_iff db client_id s e cl hcl g).mp hg
    have htr : t ∈ unbilledRows db client_id s e :=
      (mem_unbilledRows db client_id s e t).mpr ⟨ht, hu⟩
    constructor
    · intro heid
      obtain ⟨u, hur, hukey, huid⟩ :=
        (mem_entryIDs_mkDeptGroup db cl _ key t.entryID).mp heid
      have hu_mem : u ∈ db.timeEntries :=
        ((mem_unbilledRows db client_id s e u).mp hur).1
      have : u = t := List.inj_on_of_nodup_map hids hu_mem ht huid
      subst this
      exact hukey.symm
    · intro hkey
      exact (mem_entryIDs_mkDeptGroup db cl _ key t.entryID).mpr
        ⟨t, htr, hkey.symm, rfl⟩
  · intro g hg hnone
    obtain ⟨key, -, rfl⟩ := (mem_groups_iff db client_id s e cl hcl g).mp hg
    have : key = none := hnone
    subst this
    rfl
  · rw [grouped_departments_eq db client_id s e cl hcl]
    exact List.sorted_insertionSort groupLE _

/-- An engineering department of client 1 with its own billing rate. -/
def engDept : Department :=
  { clientDepartmentID := 2, clientID := 1, departmentName := "Eng",
    billingRate := some 75, isActive := true }

/-- A state exercising the aggregation: a department entry, a General
entry, a linked (billed) entry and an out-of-range entry. -/
def richDB : DB :=
  { clients := [acmeClient]
    departments := [engDept]
    timeEntries :=
      [mondayEntry,
       { entryID := 8, clientID := 1, deptID := some 2, weekStartDate := 0,
         dayOfWeek := 2, hoursWorked := 3, rateUsed := none, notes := "" },
       { entryID := 9, clientID := 1, deptID := none, weekStartDate := 0,
         dayOfWeek := 3, hoursWorked := 2, rateUsed := some 100, notes := "" },
       { entryID := 10, clientID := 1, deptID := none, weekStartDate := 14,
         dayOfWeek := 1, hoursWorked := 4, rateUsed := some 100, notes := "" }]
    invoices := [{ invoiceID := 1, clientID := 1,
                   invoiceNumber := "INV-2024-0001", invoiceDate := 90,
                   dueDate := 120, totalHours := 2, totalAmount := 200,
                   status := "Sent", notes := "" }]
    lineItems := [{ lineItemID := 1, invoiceID := 1, deptID := none,
                    lineDescription := "w", billingCategory := "General",
                    totalHours := 2, hourlyRate := 100, amount := 200 }]
    links := [{ lineItemID := 1, timeEntryID := 9, hoursIncluded := 2 }]
    nextEntryId := 11, nextInvoiceId := 2, nextLineItemId := 2 }

theorem unbilled_grouping_characterization_witness :
    (∀ eid : Nat,
      (∃ g ∈ (get_hours_grouped_by_department richDB 1 0 6).departments,
        eid ∈ g.entryIDs) ↔
      (∃ t ∈ richDB.timeEntries, t.entryID = eid ∧ UnbilledRow richDB 1 0 6 t)) ∧
    (∀ g ∈ (get_hours_grouped_by_department richDB 1 0 6).departments,
      ∀ t ∈ richDB.timeEntries, UnbilledRow richDB 1 0 6 t →
        (t.entryID ∈ g.entryIDs ↔ g.clientDepartmentID = t.deptID)) ∧
    (∀ g ∈ (get_hours_grouped_by_department richDB 1 0 6).departments,
      g.clientDepartmentID = none → g.departmentName = "General") ∧
    List.Sorted (fun g₁ g₂ : DeptGroup => g₁.departmentName ≤ g₂.departmentName)
      (get_hours_grouped_by_department richDB 1 0 6).departments :=
  unbilled_grouping_characterization richDB 1 0 6 acmeClient (by decide)
    (by decide)

/-! ## C3 — delete_invoice releases the claimed entries -/

/-- C3: deleting an invoice removes, in the one delete operation, its
header, its line items and the junction rows hanging off those line items;
consequently a time entry all of whose claims came through this invoice has
no junction row left and reappears in the unbilled aggregation for its
client and any date range containing its calendar date. -/
theorem delete_invoice_releases_entries (db : DB) (invoice_id : Nat)
    (t : TimeEntry) (s e : Int) (cl : Client)
    (ht : t ∈ db.timeEntries)
    (hlinks : ∀ l ∈ db.links, l.timeEntryID = t.entryID →
      ∃ li ∈ db.lineItems, li.lineItemID = l.lineItemID ∧
        li.invoiceID = invoice_id)
    (hcl : db.clients.find? (fun c => c.clientID == t.clientID) = some cl)
    (hs : s ≤ calDate t) (he : calDate t ≤ e) :
    (∀ inv ∈ (delete_invoice db invoice_id).invoices,
      inv.invoiceID ≠ invoice_id) ∧
    (∀ li ∈ (delete_invoice db invoice_id).lineItems,
      li.invoiceID ≠ invoice_id) ∧
    (∀ l ∈ (delete_invoice db invoice_id).links, l.timeEntryID ≠ t.entryID) ∧
    ∃ g ∈ (get_hours_grouped_by_department (delete_invoice db invoice_id)
        t.clientID s e).departments, t.entryID ∈ g.entryIDs := by
  have hlinkfree : ∀ l ∈ (delete_invoice db invoice_id).links,
      l.timeEntryID ≠ t.entryID := by
    intro l hl heq
    have hl' : l ∈ db.links ∧
        (!((db.lineItems.filter fun li => li.invoiceID == invoice_id).map
            fun li => li.lineItemID).contains l.lineItemID) = true :=
      List.mem_filter.mp hl
    obtain ⟨li, hli, hlid, hliinv⟩ := hlinks l hl'.1 heq
    have hmem : l.lineItemID ∈
        (db.lineItems.filter fun li => li.invoiceID == invoice_id).map
          fun li => li.lineItemID :=
      List.mem_map.mpr ⟨li,
        List.mem_filter.mpr ⟨hli, beq_iff_eq.mpr hliinv⟩, hlid⟩
    have hnotmem : l.lineItemID ∉
        (db.lineItems.filter fun li => li.invoiceID == invoice_id).map
          fun li => li.lineItemID := by
      intro hm
      have h' : ((db.lineItems.filter fun li => li.invoiceID == invoice_id).map
          fun li => li.lineItemID).elem l.lineItemID = false := by
        simpa using hl'.2
      rw [List.elem_eq_true_of_mem hm] at h'
      exact Bool.noConfusion h'
    exact hnotmem hmem
  refine ⟨?_, ?_, hlinkfree, ?_⟩
  · intro inv hinv
    exact bne_iff_ne.mp (List.mem_filter.mp hinv).2
  · intro li hli
    exact bne_iff_ne.mp (List.mem_filter.mp hli).2
  · have hcl' : (delete_invoice db invoice_id).clients.find?
        (fun c => c.clientID == t.clientID) = some cl := hcl
    have ht' : t ∈ (delete_invoice db invoice_id).timeEntries := ht
    have hu : UnbilledRow (delete_invoice db invoice_id) t.clientID s e t := by
      refine ⟨rfl, hs, he, ?_⟩
      apply List.any_eq_false.mpr
      intro l hl
      intro hbeq
      exact hlinkfree l hl (beq_iff_eq.mp hbeq)
    have htr : t ∈ unbilledRows (delete_invoice db invoice_id) t.clientID s e :=
      (mem_unbilledRows _ t.clientID s e t).mpr ⟨ht', hu⟩
    exact ⟨mkDeptGroup (delete_invoice db invoice_id) cl
        (unbilledRows (delete_invoice db invoice_id) t.clientID s e) t.deptID,
      (mem_groups_iff _ t.clientID s e cl hcl' _).mpr
        ⟨t.deptID, (mem_dedup_keys _ _).mpr ⟨t, htr, rfl⟩, rfl⟩,
      (mem_entryIDs_mkDeptGroup _ cl _ t.deptID t.entryID).mpr
        ⟨t, htr, rfl, rfl⟩⟩

theorem delete_invoice_releases_entries_witness :
    (∀ inv ∈ (delete_invoice billedDB 1).invoices, inv.invoiceID ≠ 1) ∧
    (∀ li ∈ (delete_invoice billedDB 1).lineItems, li.invoiceID ≠ 1) ∧
    (∀ l ∈ (delete_invoice billedDB 1).links,
      l.timeEntryID ≠ mondayEntry.entryID) ∧
    ∃ g ∈ (get_hours_grouped_by_department (delete_invoice billedDB 1)
        mondayEntry.clientID 0 6).departments,
      mondayEntry.entryID ∈ g.entryIDs :=
  delete_invoice_releases_entries billedDB 1 mondayEntry 0 6 acmeClient
    (by decide)
    (by
      intro l hl heq
      fin_cases hl
      exact ⟨{ lineItemID := 1, invoiceID := 1, deptID := none,
               lineDescription := "Week 1", billingCategory := "General",
               totalHours := 8, hourlyRate := 100, amount := 800 },
             by decide, rfl, rfl⟩)
    (by decide) (by decide) (by decide)

/-! ## C6 — rate resolution precedence -/

/-- Modelled from the spec (§4.1 contract `resolve_rate`), with the first
step matching the code's actual behavior at line 550 and in
`get_day_entries`: the entry-level rate applies whenever it is present
(non-null) — with no positivity requirement — else the department's
billing rate when one is defined, else the client's default rate. -/
def resolve_rate (entry_rate department_rate : Option ℚ)
    (client_default_rate : ℚ) : ℚ :=
  match entry_rate with
  | some r => r
  | none =>
    match department_rate with
    | some r => r
    | none => client_default_rate

/-- The resolution ladder exactly as the claim states it: the entry-level
rate only when present AND positive, else the department rate when defined,
else the client default. -/
def resolve_rate_claimed (entry_rate department_rate : Option ℚ)
    (client_default_rate : ℚ) : ℚ :=
  match entry_rate with
  | some r =>
    if 0 < r then r
    else
      match department_rate with
      | some r' => r'
      | none => client_default_rate
  | none =>
    match department_rate with
    | some r' => r'
    | none => client_default_rate

/-- A client with default rate 50, a department with rate 75, and an entry
whose stored rate is 0 (present but not positive). -/
def rateDB : DB :=
  { clients := [{ clientID := 1, clientName := "Acme", defaultRate := 50,
                  paymentTerms := 30, active := true }]
    departments := [{ clientDepartmentID := 3, clientID := 1,
                      departmentName := "Eng", billingRate := some 75,
                      isActive := true }]
    timeEntries := [{ entryID := 9, clientID := 1, deptID := some 3,
                      weekStartDate := 0, dayOfWeek := 1, hoursWorked := 1,
                      rateUsed := some 0, notes := "" }]
    invoices := [], lineItems := [], links := []
    nextEntryId := 10, nextInvoiceId := 1, nextLineItemId := 1 }

/-- C6 counterexample: on `rateDB` the claim as stated predicts a resolved
rate of 75 (entry rate 0 is present but not positive, so the department
rate should win) and hence a group amount of 1 × 75 = 75, but the code
resolves the present entry rate 0 and the aggregation reports amount 0. -/
theorem rate_positivity_counterexample :
    ((get_hours_grouped_by_department rateDB 1 0 6).departments.map
      fun g => g.totalAmount) = [0] ∧
    resolve_rate_claimed (some 0) (some 75) 50 = 75 ∧
    sumBy rateDB.timeEntries
      (fun t => t.hoursWorked *
        resolve_rate_claimed t.rateUsed (dept_billing_rate rateDB t.deptID) 50) = 75 ∧
    (75 : ℚ) ≠ 0 := by
  refine ⟨by decide, by decide, by decide, by decide⟩

/-- C6 (amended): the aggregation resolves an entry's rate as its stored
RateUsed whenever present — even zero or negative — else the department's
billing rate when defined, else the client's default; each group's amount
is the sum over its entries of hours times that entry's resolved rate. -/
theorem unbilled_amount_uses_present_entry_rate (db : DB) (client_id : Nat)
    (s e : Int) (cl : Client)
    (hcl : db.clients.find? (fun c => c.clientID == client_id) = some cl) :
    (∀ r dr d, resolve_rate (some r) dr d = r) ∧
    (∀ dr d, resolve_rate none (some dr) d = dr) ∧
    (∀ d, resolve_rate none none d = d) ∧
    ∀ g ∈ (get_hours_grouped_by_department db client_id s e).departments,
      g.totalAmount =
        sumBy ((unbilledRows db client_id s e).filter
            fun t => t.deptID == g.clientDepartmentID)
          fun t => t.hoursWorked *
            resolve_rate t.rateUsed (dept_billing_rate db t.deptID)
              cl.defaultRate := by
  refine ⟨fun _ _ _ => rfl, fun _ _ => rfl, fun _ => rfl, ?_⟩
  intro g hg
  obtain ⟨key, -, rfl⟩ := (mem_groups_iff db client_id s e cl hcl g).mp hg
  simp only [mkDeptGroup]
  unfold sumBy
  refine congrArg List.sum (List.map_congr_left fun t _ => ?_)
  unfold entry_rate_used resolve_rate
  cases t.rateUsed <;> cases dept_billing_rate db t.deptID <;> rfl

theorem unbilled_amount_uses_present_entry_rate_witness :
    (∀ r dr d, resolve_rate (some r) dr d = r) ∧
    (∀ dr d, resolve_rate none (some dr) d = dr) ∧
    (∀ d, resolve_rate none none d = d) ∧
    ∀ g ∈ (get_hours_grouped_by_department rateDB 1 0 6).departments,
      g.totalAmount =
        sumBy ((unbilledRows rateDB 1 0 6).filter
            fun t => t.deptID == g.clientDepartmentID)
          fun t => t.hoursWorked *
            resolve_rate t.rateUsed (dept_billing_rate rateDB t.deptID)
              (50 : ℚ) :=
  unbilled_amount_uses_present_entry_rate rateDB 1 0 6
    { clientID := 1, clientName := "Acme", defaultRate := 50,
      paymentTerms := 30, active := true } (by decide)

/-! ## C5 — save_time_entry is a keyed upsert -/

theorem find?_eq_some_of_unique {α : Type} (p : α → Bool) :
    ∀ (l : List α) (a : α), a ∈ l → p a = true →
      (∀ b ∈ l, p b = true → b = a) → l.find? p = some a := by
  intro l
  induction l with
  | nil => intro a ha _ _; cases ha
  | cons x xs ih =>
      intro a ha hpa huniq
      by_cases hx : p x = true
      · rw [List.find?_cons_of_pos _ hx, huniq x (List.mem_cons_self x xs) hx]
      · rw [List.find?_cons_of_neg _ hx]
        refine ih a ?_ hpa fun b hb hpb => huniq b (List.mem_cons_of_mem x hb) hpb
        rcases List.mem_cons.mp ha with h | h
        · exact absurd (h ▸ hpa) hx
        · exact h

/-- C5: save_time_entry is an upsert keyed by (client, department, week
start, day): on a matching row, hours > 0 updates it in place returning its
id while hours = 0 deletes it returning none; with no matching row,
hours > 0 inserts a fresh row returning the new id while hours = 0 is a
no-op returning none. -/
theorem save_time_entry_upsert (db : DB) (client_id : Nat) (week_start : Int)
    (day : Int) (hours rate : ℚ) (notes : String) (dept_id : Option Nat) :
    (∀ t ∈ db.timeEntries,
      entry_key_matches client_id week_start day dept_id t = true →
      (∀ u ∈ db.timeEntries,
        entry_key_matches client_id week_start day dept_id u = true → u = t) →
      (0 < hours →
        (save_time_entry db client_id week_start day hours rate notes dept_id).2 =
          some t.entryID ∧
        (save_time_entry db client_id week_start day hours rate notes dept_id).1.timeEntries =
          db.timeEntries.map fun u =>
            if u.entryID == t.entryID then
              { u with hoursWorked := hours, rateUsed := some rate, notes := notes }
            else u) ∧
      (hours = 0 →
        (save_time_entry db client_id week_start day hours rate notes dept_id).2 =
          none ∧
        (save_time_entry db client_id week_start day hours rate notes dept_id).1.timeEntries =
          db.timeEntries.filter fun u => u.entryID != t.entryID)) ∧
    ((∀ t ∈ db.timeEntries,
        entry_key_matches client_id week_start day dept_id t = false) →
      (0 < hours →
        (save_time_entry db client_id week_start day hours rate notes dept_id).2 =
          some db.nextEntryId ∧
        (save_time_entry db client_id week_start day hours rate notes dept_id).1.timeEntries =
          db.timeEntries ++
            [{ entryID := db.nextEntryId, clientID := client_id,
               deptID := dept_id, weekStartDate := week_start, dayOfWeek := day,
               hoursWorked := hours, rateUsed := some rate, notes := notes }]) ∧
      (hours = 0 →
        save_time_entry db client_id week_start day hours rate notes dept_id =
          (db, none))) := by
  constructor
  · intro t ht hkey huniq
    have hfind : db.timeEntries.find?
        (entry_key_matches client_id week_start day dept_id) = some t :=
      find?_eq_some_of_unique _ db.timeEntries t ht hkey huniq
    constructor
    · intro hpos
      simp only [save_time_entry, hfind]
      rw [if_pos hpos]
      exact ⟨rfl, rfl⟩
    · intro hzero
      simp only [save_time_entry, hfind]
      rw [if_neg (by rw [hzero]; exact lt_irrefl 0)]
      exact ⟨rfl, rfl⟩
  · intro hnone
    have hfind : db.timeEntries.find?
        (entry_key_matches client_id week_start day dept_id) = none :=
      List.find?_eq_none.mpr fun x hx => by simp [hnone x hx]
    constructor
    · intro hpos
      simp only [save_time_entry, hfind]
      rw [if_pos hpos]
      exact ⟨rfl, rfl⟩
    · intro hzero
      simp only [save_time_entry, hfind]
      rw [if_neg (by rw [hzero]; exact lt_irrefl 0)]

theorem save_time_entry_upsert_witness :
    ((save_time_entry sampleDB 1 0 1 5 90 ("") none).2 =
        some mondayEntry.entryID ∧
      (save_time_entry sampleDB 1 0 1 5 90 ("") none).1.timeEntries =
        sampleDB.timeEntries.map fun u =>
          if u.entryID == mondayEntry.entryID then
            { u with hoursWorked := 5, rateUsed := some 90, notes := "" }
          else u) ∧
    ((save_time_entry sampleDB 1 0 1 0 90 ("") none).2 = none ∧
      (save_time_entry sampleDB 1 0 1 0 90 ("") none).1.timeEntries =
        sampleDB.timeEntries.filter fun u =>
          u.entryID != mondayEntry.entryID) ∧
    ((save_time_entry sampleDB 1 0 2 5 90 ("") none).2 =
        some sampleDB.nextEntryId ∧
      (save_time_entry sampleDB 1 0 2 5 90 ("") none).1.timeEntries =
        sampleDB.timeEntries ++
          [{ entryID := sampleDB.nextEntryId, clientID := 1, deptID := none,
             weekStartDate := 0, dayOfWeek := 2, hoursWorked := 5,
             rateUsed := some 90, notes := "" }]) ∧
    save_time_entry sampleDB 1 0 2 0 90 ("") none = (sampleDB, none) :=
  ⟨(save_time_entry_upsert sampleDB 1 0 1 5 90 ("") none).1 mondayEntry
      (by decide) (by decide) (by decide) |>.1 (by decide),
   (save_time_entry_upsert sampleDB 1 0 1 0 90 ("") none).1 mondayEntry
      (by decide) (by decide) (by decide) |>.2 rfl,
   (save_time_entry_upsert sampleDB 1 0 2 5 90 ("") none).2
      (by decide) |>.1 (by decide),
   (save_time_entry_upsert sampleDB 1 0 2 0 90 ("") none).2
      (by decide) |>.2 rfl⟩

/-! ## C9 — the weekly grid is total over active clients and days -/

theorem weekly_cell_day (db : DB) (cl : Client) (ws d : Int) :
    (weekly_cell db cl ws d).day = d := by
  unfold weekly_cell
  cases (db.timeEntries.filter fun t =>
      t.clientID == cl.clientID && t.weekStartDate == ws &&
        t.dayOfWeek == d).getLast? <;> rfl

/-- C9: for every week start, the grid has a row for every active client
with a cell for each of the 7 days; a day with no matching time entry
reports zero hours, the client's default rate and a null entry id. -/
theorem weekly_grid_complete (db : DB) (week_start : Int) (cl : Client)
    (hcl : cl ∈ db.clients) (hact : cl.active = true) :
    ∃ row ∈ get_weekly_timesheet db week_start, row.clientID = cl.clientID ∧
      (∀ day : Int, 1 ≤ day → day ≤ 7 → ∃ c ∈ row.days, c.day = day) ∧
      (∀ day : Int, 1 ≤ day → day ≤ 7 →
        (∀ t ∈ db.timeEntries,
          ¬(t.clientID = cl.clientID ∧ t.weekStartDate = week_start ∧
            t.dayOfWeek = day)) →
        ∃ c ∈ row.days, c.day = day ∧ c.hours = 0 ∧ c.rate = cl.defaultRate ∧
          c.entry_id = none) := by
  refine ⟨_, List.mem_map.mpr ⟨cl, List.mem_filter.mpr ⟨hcl, hact⟩, rfl⟩,
    rfl, ?_, ?_⟩
  · intro day h1 h7
    have hdays : day ∈ ([1, 2, 3, 4, 5, 6, 7] : List Int) := by
      interval_cases day <;> decide
    exact ⟨weekly_cell db cl week_start day,
      List.mem_map.mpr ⟨day, hdays, rfl⟩, weekly_cell_day db cl week_start day⟩
  · intro day h1 h7 hempty
    have hdays : day ∈ ([1, 2, 3, 4, 5, 6, 7] : List Int) := by
      interval_cases day <;> decide
    have hfilter : (db.timeEntries.filter fun t =>
        t.clientID == cl.clientID && t.weekStartDate == week_start &&
          t.dayOfWeek == day) = [] := by
      rw [List.filter_eq_nil_iff]
      intro t ht hb
      simp only [Bool.and_eq_true, beq_iff_eq] at hb
      exact hempty t ht ⟨hb.1.1, hb.1.2, hb.2⟩
    refine ⟨weekly_cell db cl week_start day,
      List.mem_map.mpr ⟨day, hdays, rfl⟩, ?_⟩
    unfold weekly_cell
    rw [hfilter]
    exact ⟨rfl, rfl, rfl, rfl⟩

theorem weekly_grid_complete_witness :
    ∃ row ∈ get_weekly_timesheet sampleDB 0, row.clientID = acmeClient.clientID ∧
      (∀ day : Int, 1 ≤ day → day ≤ 7 → ∃ c ∈ row.days, c.day = day) ∧
      (∀ day : Int, 1 ≤ day → day ≤ 7 →
        (∀ t ∈ sampleDB.timeEntries,
          ¬(t.clientID = acmeClient.clientID ∧ t.weekStartDate = 0 ∧
            t.dayOfWeek = day)) →
        ∃ c ∈ row.days, c.day = day ∧ c.hours = 0 ∧
          c.rate = acmeClient.defaultRate ∧ c.entry_id = none) :=
  weekly_grid_complete sampleDB 0 acmeClient (by decide) (by decide)
